import Mathlib

/-!
# greenlight: movie validation and the movie repository

A shallow embedding of `internal/data/movies.go`.

* Go strings are Lean strings; Go `len(s)` is the UTF-8 byte length.
* Go `int32` values are integers; the one conversion in the file, `int32(...)`
  of the calendar year, is modelled with explicit wrap-around.
* A nil slice is `none`, a non-nil slice is `some l`.
* The MongoDB collection is a list of documents that is passed in and out of
  every repository operation; the store keeps `_id` unique, and its `$inc`
  works on integers without bound, so a stored `version` can leave `int32`.
  Reading a document back decodes `version` into the `int32` field `Version`
  and fails when the stored value does not fit.
* Every call to the store takes a fault argument, so that a failing store (an
  error or the expired deadline) can be stated; `none` is a call that the store
  answers.
-/

namespace Greenlight

/-! ## Package `validator` -/

/-- Modelled from the spec: the `validator.Validator` type (package
`internal/validator`), an accumulator mapping a field key to one message. -/
structure Validator where
  Errors : List (String × String)
deriving DecidableEq, Repr

namespace Validator

/-- Modelled from the spec: `validator.New`, the validator with no entries. -/
def New : Validator := ⟨[]⟩

/-- Modelled from the spec: `valid()` is true iff no entries are recorded. -/
def Valid (v : Validator) : Bool := v.Errors.length == 0

/-- Modelled from the spec: `AddError`, which records `message` under `key`
unless `key` already has an entry. -/
def AddError (v : Validator) (key message : String) : Validator :=
  match v.Errors.lookup key with
  | some _ => v
  | none => ⟨(key, message) :: v.Errors⟩

/-- Modelled from the spec: `check(condition, key, message)`: if `condition`
is false and `key` has no existing entry, record `message` under `key`. -/
def Check (v : Validator) (ok : Bool) (key message : String) : Validator :=
  if !ok then v.AddError key message else v

/-- The message recorded under `key`, if any. -/
def get (v : Validator) (key : String) : Option String := v.Errors.lookup key

end Validator

/-- Modelled from the spec: `validator.Unique`, true iff the number of distinct
values equals the length of the input sequence. -/
def Unique (values : List String) : Bool := values.length == values.dedup.length

/-! ## Go helpers -/

/-- Go `len(s)` for a string: the number of bytes. -/
def strLen (s : String) : Nat := s.utf8ByteSize

/-- Go `len(s)` for a slice; a nil slice has length 0. -/
def sliceLen {α : Type} : Option (List α) → Nat
  | none => 0
  | some l => l.length

/-- The elements of a slice; a nil slice has none. -/
def sliceElems {α : Type} : Option (List α) → List α
  | none => []
  | some l => l

/-- Go conversion `int32(x)` of an integer: two's-complement wrap-around. -/
def toInt32 (x : Int) : Int := (x + 2147483648) % 4294967296 - 2147483648

/-- The values representable as `int32`. -/
def InInt32 (x : Int) : Prop := -2147483648 ≤ x ∧ x ≤ 2147483647

/-! ## The movie record -/

/-- A MongoDB `primitive.ObjectID`: twelve bytes. -/
abbrev ObjectID := { l : List (Fin 256) // l.length = 12 }

/-- The `Movie` struct, also used for the stored document. `CreatedAt` is a
timestamp (milliseconds), `Runtime` is the `Runtime` integer type, `Genres` is
a slice that may be nil. `Version` is `int32` in Go; in a stored document it is
the integer the store holds, which `decodeMovie` checks against `int32` when
the document is read into the struct. -/
structure Movie where
  OID : ObjectID
  ID : String
  CreatedAt : Int
  Title : String
  Year : Int
  Runtime : Int
  Genres : Option (List String)
  Version : Int
deriving DecidableEq, Repr

/-- `ValidateMovie`: `nowYear` is the value of `time.Now().Year()`. -/
def ValidateMovie (v : Validator) (movie : Movie) (nowYear : Int) : Validator :=
  let v := v.Check (movie.Title != "") "title" "must be provided"
  let v := v.Check (strLen movie.Title ≤ 500) "title" "must not be more than 500 bytes long"
  let v := v.Check (movie.Year != 0) "year" "must be provided"
  let v := v.Check (movie.Year ≥ 1888) "year" "must be greater than 1888"
  let v := v.Check (movie.Year ≤ toInt32 nowYear) "year" "must not be in the future"
  let v := v.Check (movie.Runtime != 0) "runtime" "must be provided"
  let v := v.Check (movie.Runtime > 0) "runtime" "must be a positive integer"
  let v := v.Check (movie.Genres != none) "genres" "must be provided"
  let v := v.Check (sliceLen movie.Genres ≥ 1) "genres" "must contain at least 1 genre"
  let v := v.Check (sliceLen movie.Genres ≤ 5) "genres" "must not contain more than 5 genres"
  let v := v.Check (Unique (sliceElems movie.Genres)) "genres" "must not contain duplicate values"
  v

/-- The record invariants of the data model, for current year `Y`. -/
def RecordInvariants (movie : Movie) (Y : Int) : Prop :=
  movie.Title ≠ "" ∧ strLen movie.Title ≤ 500 ∧
  1888 ≤ movie.Year ∧ movie.Year ≤ Y ∧
  0 < movie.Runtime ∧
  ∃ g, movie.Genres = some g ∧ 1 ≤ g.length ∧ g.length ≤ 5 ∧ g.Nodup

/-- The checks of `ValidateMovie` in source order: condition, key, message. -/
def movieChecks (movie : Movie) (nowYear : Int) : List (Bool × String × String) :=
  [ (movie.Title != "", "title", "must be provided"),
    (strLen movie.Title ≤ 500, "title", "must not be more than 500 bytes long"),
    (movie.Year != 0, "year", "must be provided"),
    (movie.Year ≥ 1888, "year", "must be greater than 1888"),
    (movie.Year ≤ toInt32 nowYear, "year", "must not be in the future"),
    (movie.Runtime != 0, "runtime", "must be provided"),
    (movie.Runtime > 0, "runtime", "must be a positive integer"),
    (movie.Genres != none, "genres", "must be provided"),
    (sliceLen movie.Genres ≥ 1, "genres", "must contain at least 1 genre"),
    (sliceLen movie.Genres ≤ 5, "genres", "must not contain more than 5 genres"),
    (Unique (sliceElems movie.Genres), "genres", "must not contain duplicate values") ]

/-- The message of the first failing check for `key` in a list of checks. -/
def firstFailure (key : String) (checks : List (Bool × String × String)) : Option String :=
  (checks.find? (fun c => !c.1 && c.2.1 == key)).map (fun c => c.2.2)

/-- Whether some check for `key` fails. -/
def someFailure (key : String) (checks : List (Bool × String × String)) : Bool :=
  checks.any (fun c => !c.1 && c.2.1 == key)

/-- Running a list of checks against a validator, in order. -/
def runChecks (v : Validator) (checks : List (Bool × String × String)) : Validator :=
  checks.foldl (fun v c => v.Check c.1 c.2.1 c.2.2) v

/-! ## Errors and object identifiers -/

/-- The error values the repository can return. -/
inductive GoError where
  /-- The identifier is not 24 hexadecimal digits (`primitive.ErrInvalidHex`
  or a hex decoding error): the ID-format error. -/
  | invalidHex
  /-- The not-found error `mongo.ErrNoDocuments`. -/
  | noDocuments
  /-- A duplicate-key write error of the store. -/
  | duplicateKey
  /-- The five-second deadline of the context was exceeded. -/
  | deadlineExceeded
  /-- The store rejected an argument of the call. -/
  | badValue
  /-- Decoding a document failed: a stored integer overflows the `int32` field
  it is decoded into. -/
  | decodeOverflow
  /-- Any other store error, by code. -/
  | store (code : Nat)
deriving DecidableEq, Repr

/-- A Go call either returns a value or panics. -/
inductive Outcome (α : Type) where
  | ret (a : α)
  | panic
deriving DecidableEq, Repr

/-- Lower-case hexadecimal digit of a value below 16. -/
def hexDigit (n : Nat) : Char :=
  if n < 10 then Char.ofNat (48 + n) else Char.ofNat (87 + n)

/-- Value of a hexadecimal digit, upper or lower case. -/
def fromHexChar (c : Char) : Option Nat :=
  if 48 ≤ c.toNat ∧ c.toNat ≤ 57 then some (c.toNat - 48)
  else if 97 ≤ c.toNat ∧ c.toNat ≤ 102 then some (c.toNat - 87)
  else if 65 ≤ c.toNat ∧ c.toNat ≤ 70 then some (c.toNat - 55)
  else none

/-- The two hexadecimal digits of every byte, in order. -/
def encodeHex : List (Fin 256) → List Char
  | [] => []
  | b :: bs => hexDigit (b.val / 16) :: hexDigit (b.val % 16) :: encodeHex bs

/-- Decoding of a hexadecimal string into bytes; fails on an odd length or on
a character that is not a hexadecimal digit. -/
def decodeHex : List Char → Option (List (Fin 256))
  | [] => some []
  | [_] => none
  | c1 :: c2 :: rest =>
    match fromHexChar c1, fromHexChar c2, decodeHex rest with
    | some hi, some lo, some bs => some (Fin.ofNat (hi * 16 + lo) :: bs)
    | _, _, _ => none

/-- The method `ObjectID.Hex`: 24 lower-case hexadecimal digits. -/
def ObjectID.Hex (oid : ObjectID) : String := String.mk (encodeHex oid.val)

/-- The function `primitive.ObjectIDFromHex`: the string must be 24 bytes long
and decode as hexadecimal. -/
def ObjectIDFromHex (s : String) : Except GoError ObjectID :=
  if strLen s ≠ 24 then .error .invalidHex
  else
    match decodeHex s.data with
    | none => .error .invalidHex
    | some bs => if h : bs.length = 12 then .ok ⟨bs, h⟩ else .error .invalidHex

/-- A hexadecimal digit, upper or lower case. -/
def isHexChar (c : Char) : Bool :=
  decide ((48 ≤ c.toNat ∧ c.toNat ≤ 57) ∨ (97 ≤ c.toNat ∧ c.toNat ≤ 102) ∨
    (65 ≤ c.toNat ∧ c.toNat ≤ 70))

/-- A structurally valid identifier: 24 hexadecimal digits. -/
def ValidHexID (id : String) : Prop :=
  id.data.length = 24 ∧ ∀ c ∈ id.data, isHexChar c = true

/-! ## The document store

The collection is the list of its documents in insertion order. Every driver
call takes a fault: `some e` makes the call fail with `e` (a store error or the
deadline) and leaves the collection as it is. -/

/-- The contents of the collection. -/
abbrev Store := List Movie

/-- The store keeps `_id` unique. -/
def UniqueIDs (s : Store) : Prop := (s.map (fun d => d.OID)).Nodup

/-- The document as it is read back after being written through the struct
tags: a field tagged `omitempty` that holds an empty value is left out and
decodes to the zero value, so an empty non-nil `Genres` comes back nil. -/
def bsonStored (m : Movie) : Movie :=
  { m with Genres := if m.Genres = some [] then none else m.Genres }

/-- The first document with the given `_id`. -/
def findByID (s : Store) (oid : ObjectID) : Option Movie :=
  s.find? (fun d => d.OID == oid)

/-- Applies `f` to the first document with the given `_id`. -/
def updateFirst (oid : ObjectID) (f : Movie → Movie) : Store → Store
  | [] => []
  | d :: ds => if d.OID == oid then f d :: ds else d :: updateFirst oid f ds

/-- Removes the first document with the given `_id`. -/
def removeFirst (oid : ObjectID) : Store → Store
  | [] => []
  | d :: ds => if d.OID == oid then ds else d :: removeFirst oid ds

/-- The driver call `Collection.InsertOne`: a document whose `_id` is already
present is rejected with a duplicate-key error. -/
def InsertOne (s : Store) (fault : Option GoError) (doc : Movie) : Store × Option GoError :=
  match fault with
  | some e => (s, some e)
  | none =>
    match findByID s doc.OID with
    | some _ => (s, some .duplicateKey)
    | none => (s ++ [bsonStored doc], none)

/-- The driver call `Collection.FindOneAndUpdate` with filter `_id = oid`; the
error of the returned result is `ErrNoDocuments` when nothing matches. -/
def FindOneAndUpdate (s : Store) (fault : Option GoError) (oid : ObjectID)
    (update : Movie → Movie) : Store × Option GoError :=
  match fault with
  | some e => (s, some e)
  | none =>
    match findByID s oid with
    | none => (s, some .noDocuments)
    | some _ => (updateFirst oid update s, none)

/-- Decoding of a stored document into a `Movie` value: the stored `version`
must fit the `int32` field `Version`, else the decoder reports an overflow.
Title, year, runtime and genres are only ever written from the fields of a
`Movie` value and decode as they are. -/
def decodeMovie (d : Movie) : Except GoError Movie :=
  if -2147483648 ≤ d.Version ∧ d.Version ≤ 2147483647 then .ok d
  else .error .decodeOverflow

/-- The driver call `Collection.FindOne(...).Decode` with filter `_id = oid`:
not-found when nothing matches, else the decoded document. -/
def FindOne (s : Store) (fault : Option GoError) (oid : ObjectID) : Except GoError Movie :=
  match fault with
  | some e => .error e
  | none =>
    match findByID s oid with
    | none => .error .noDocuments
    | some d => decodeMovie d

/-- The driver call `Collection.UpdateByID`; updating no document is not an
error. -/
def UpdateByID (s : Store) (fault : Option GoError) (oid : ObjectID)
    (update : Movie → Movie) : Store × Option GoError :=
  match fault with
  | some e => (s, some e)
  | none => (updateFirst oid update s, none)

/-- The driver call `Collection.DeleteOne` with filter `_id = oid`: the
collection, the result (`none` is a nil `*DeleteResult`, `some n` has
`DeletedCount = n`) and the error. A failed call returns its error together
with the result the fault names, which is nil for a call that did not reach
the store or ran into the deadline. -/
def DeleteOne (s : Store) (fault : Option (GoError × Option Int)) (oid : ObjectID) :
    Store × Option Int × Option GoError :=
  match fault with
  | some (e, res) => (s, res, some e)
  | none =>
    match findByID s oid with
    | none => (s, some 0, none)
    | some _ => (removeFirst oid s, some 1, none)

/-! ## Filters and metadata -/

/-- Modelled from the spec: the `Filters` struct (file `filters.go`): page,
page size and sort key (field `Sort`, a reserved word here). -/
structure Filters where
  Page : Int
  PageSize : Int
  SortKey : String
deriving DecidableEq, Repr

/-- Modelled from the spec: `limit = pageSize`. -/
def Filters.limit (f : Filters) : Int := f.PageSize

/-- Modelled from the spec: `offset = (page - 1) * pageSize`. -/
def Filters.offset (f : Filters) : Int := (f.Page - 1) * f.PageSize

/-- Modelled from the spec: the `Metadata` struct (file `filters.go`). -/
structure Metadata where
  CurrentPage : Int
  PageSize : Int
  FirstPage : Int
  LastPage : Int
  TotalRecords : Int
deriving DecidableEq, Repr

/-- Modelled from the spec: `calculateMetadata` (file `filters.go`): all fields
zero when `totalRecords` is 0, otherwise `firstPage = 1` and
`lastPage = ceil(totalRecords / pageSize)`. -/
def calculateMetadata (totalRecords page pageSize : Int) : Metadata :=
  if totalRecords = 0 then ⟨0, 0, 0, 0, 0⟩
  else
    { CurrentPage := page
      PageSize := pageSize
      FirstPage := 1
      LastPage := ⌈(totalRecords : ℚ) / (pageSize : ℚ)⌉
      TotalRecords := totalRecords }

/-! ## Queries -/

/-- The store predicate: `bson.D{}` matches every document, the other form is
the single clause `$text: {$search: s}`. -/
inductive Predicate where
  | matchAll
  | textSearch (search : String)
deriving DecidableEq, Repr

/-- The sort document built by the `switch` of `GetAll`: key and value. -/
def sortSpec (sort : String) : String × Int :=
  if sort = "title" then ("title", 1)
  else if sort = "-title" then ("title", -1)
  else if sort = "runtime" then ("runtime", 1)
  else if sort = "-runtime" then ("runtime", -1)
  else if sort = "year" then ("year", 1)
  else if sort = "-year" then ("year", -1)
  else if sort = "-id" then ("id", -1)
  else ("id", 1)

/-- The filter built by `GetAll` from the title and the genre terms; of the
slice only the length and the elements are used. -/
def buildFilter (title : String) (genres : List String) : Predicate :=
  if title ≠ "" ∧ genres.length ≠ 0 then
    let searchSlice := [title] ++ genres
    let searchString := String.intercalate ", " searchSlice
    .textSearch searchString
  else if title ≠ "" ∧ genres.length = 0 then
    .textSearch title
  else if title = "" ∧ genres.length ≠ 0 then
    let searchString := String.intercalate ", " genres
    .textSearch searchString
  else
    .matchAll

/-- The documents a predicate selects; `textMatch` is the full-text search of
the store (its text index), which the repository does not define. -/
def matching (textMatch : String → Movie → Bool) (p : Predicate) (s : Store) : List Movie :=
  match p with
  | .matchAll => s
  | .textSearch q => s.filter (textMatch q)

/-- Order of two documents on a sort key, ascending. -/
def fieldLE (key : String) (a b : Movie) : Bool :=
  if key = "title" then decide (a.Title ≤ b.Title)
  else if key = "year" then decide (a.Year ≤ b.Year)
  else if key = "runtime" then decide (a.Runtime ≤ b.Runtime)
  else if key = "id" then decide (a.ID ≤ b.ID)
  else true

/-- Order of two documents under a sort document: value 1 is ascending, value
-1 descending. -/
def docLE (sort : String × Int) (a b : Movie) : Bool :=
  if sort.2 < 0 then fieldLE sort.1 b a else fieldLE sort.1 a b

/-- The documents in the order of a sort document. -/
def sortDocs (sort : String × Int) (docs : List Movie) : List Movie :=
  docs.insertionSort (fun a b => docLE sort a b = true)

/-- The driver call `Collection.CountDocuments` with optional limit and skip:
the number of matching documents left after the skip and under the limit. -/
def CountDocuments (s : Store) (textMatch : String → Movie → Bool) (fault : Option GoError)
    (p : Predicate) (opts : Option (Int × Int)) : Except GoError Int :=
  match fault with
  | some e => .error e
  | none =>
    match opts with
    | none => .ok (matching textMatch p s).length
    | some (limit, skip) =>
      if limit ≤ 0 ∨ skip < 0 then .error .badValue
      else .ok (((matching textMatch p s).drop skip.toNat).take limit.toNat).length

/-- The driver call `Collection.Find` with sort, limit and skip, followed by
`cursor.All`: the matching documents in sort order, after the skip and under
the limit (limit 0 is no limit, a negative limit is its absolute value).
`faultAll` is every failure of `cursor.All`, a page that does not decode
included. -/
def Find (s : Store) (textMatch : String → Movie → Bool) (faultFind faultAll : Option GoError)
    (p : Predicate) (sort : String × Int) (limit skip : Int) : Except GoError (List Movie) :=
  match faultFind with
  | some e => .error e
  | none =>
    if skip < 0 then .error .badValue
    else
      match faultAll with
      | some e => .error e
      | none =>
        let docs := (sortDocs sort (matching textMatch p s)).drop skip.toNat
        .ok (if limit = 0 then docs else docs.take limit.natAbs)

/-! ## The repository -/

/-- The update document `$inc: {version: 1}` applied to a stored document. -/
def incVersion (d : Movie) : Movie :=
  { d with Version := d.Version + 1 }

/-- The update document of `Update` applied to a stored document: `$set` of
title, year, runtime and genres and `$inc: {version: 1}`. -/
def setAndInc (movie : Movie) (d : Movie) : Movie :=
  { d with
    Title := movie.Title
    Year := movie.Year
    Runtime := movie.Runtime
    Genres := movie.Genres
    Version := d.Version + 1 }

/-- `MovieModel.Insert`: `oid` is the value of `primitive.NewObjectID()`, `now`
of `time.Now()`; `f1` and `f2` are the faults of the two writes. -/
def Insert (s : Store) (oid : ObjectID) (now : Int) (f1 f2 : Option GoError) (movie : Movie) :
    Store × Except GoError String :=
  let args : Movie :=
    { OID := oid
      ID := oid.Hex
      CreatedAt := now
      Title := movie.Title
      Year := movie.Year
      Runtime := movie.Runtime
      Genres := movie.Genres
      Version := 0 }
  match InsertOne s f1 args with
  | (s1, some err) => (s1, .error err)
  | (s1, none) =>
    let (s2, _) := FindOneAndUpdate s1 f2 oid incVersion
    (s2, .ok oid.Hex)

/-- `MovieModel.Get`. -/
def Get (s : Store) (fault : Option GoError) (id : String) : Except GoError Movie :=
  match ObjectIDFromHex id with
  | .error err => .error err
  | .ok oid =>
    match FindOne s fault oid with
    | .error err => .error err
    | .ok result => .ok result

/-- `MovieModel.Update`: `none` is the nil error. -/
def Update (s : Store) (fault : Option GoError) (movie : Movie) (id : String) :
    Store × Option GoError :=
  match ObjectIDFromHex id with
  | .error err => (s, some err)
  | .ok oid =>
    let update := setAndInc movie
    match UpdateByID s fault oid update with
    | (s1, some err) => (s1, some err)
    | (s1, none) => (s1, none)

/-- `MovieModel.Delete`: the error of `DeleteOne` is discarded and the result
is dereferenced, which panics when the result is nil. -/
def Delete (s : Store) (fault : Option (GoError × Option Int)) (id : String) :
    Store × Outcome (Option GoError) :=
  match ObjectIDFromHex id with
  | .error err => (s, .ret (some err))
  | .ok oid =>
    match DeleteOne s fault oid with
    | (s1, none, _) => (s1, .panic)
    | (s1, some deletedCount, _) =>
      if deletedCount = 0 then (s1, .ret (some .noDocuments)) else (s1, .ret none)

/-- `MovieModel.GetAll`: `fc`, `ff` and `fa` are the faults of
`CountDocuments`, `Find` and `cursor.All`. -/
def GetAll (s : Store) (textMatch : String → Movie → Bool) (fc ff fa : Option GoError)
    (title : String) (genres : List String) (filters : Filters) :
    Except GoError (List Movie × Metadata) :=
  let sort := sortSpec filters.SortKey
  let filter := buildFilter title genres
  let countOpts : Option (Int × Int) :=
    if filters.limit ≠ 0 then some (filters.limit, filters.offset) else none
  match CountDocuments s textMatch fc filter countOpts with
  | .error err => .error err
  | .ok count =>
    let metadata := calculateMetadata count filters.Page filters.PageSize
    match Find s textMatch ff fa filter sort filters.limit filters.offset with
    | .error err => .error err
    | .ok results => .ok (results, metadata)

/-! ## Sample data -/

/-- A sample object identifier; its hexadecimal form is
"60a1b2c3d4e5f60718293a4b". -/
def sampleOID : ObjectID :=
  ⟨[0x60, 0xa1, 0xb2, 0xc3, 0xd4, 0xe5, 0xf6, 0x07, 0x18, 0x29, 0x3a, 0x4b], rfl⟩

/-- A sample record, as a caller supplies it. -/
def sampleMovie : Movie :=
  { OID := sampleOID, ID := "", CreatedAt := 0, Title := "Deadpool", Year := 2016,
    Runtime := 108, Genres := some ["action", "comedy"], Version := 7 }

/-- The sample record with one more genre, as a caller supplies it to
`Update`. -/
def sampleUpdate : Movie :=
  { sampleMovie with Genres := some ["action", "comedy", "sci-fi"] }

/-- The document the store holds after the sample record is inserted at
time 0. -/
def sampleStored : Movie :=
  { OID := sampleOID, ID := "60a1b2c3d4e5f60718293a4b", CreatedAt := 0, Title := "Deadpool",
    Year := 2016, Runtime := 108, Genres := some ["action", "comedy"], Version := 1 }

/-- The store that holds the sample document only. -/
def sampleStore : Store := [sampleStored]

/-- The sample document after 2147483646 updates: its version is the largest
`int32`. -/
def maxVersionStored : Movie :=
  { sampleStored with Version := 2147483647 }

/-- The store that holds the document of largest version only. -/
def maxVersionStore : Store := [maxVersionStored]

/-! ## Lemmas on the validator -/

theorem Validator.valid_check (v : Validator) (ok : Bool) (key message : String) :
    (v.Check ok key message).Valid = (v.Valid && ok) := by
  cases ok
  · simp only [Check, AddError, Valid, Bool.not_false, if_true, Bool.and_false]
    cases h : v.Errors.lookup key with
    | none => simp
    | some m =>
      cases hE : v.Errors with
      | nil => rw [hE] at h; simp at h
      | cons a l => simp [hE]
  · simp [Check]

theorem Validator.get_check (v : Validator) (ok : Bool) (key message k : String) :
    (v.Check ok key message).get k =
      if k = key ∧ ok = false ∧ v.get k = none then some message else v.get k := by
  cases ok
  · simp only [Check, AddError, get, Bool.not_false, if_true]
    cases h : v.Errors.lookup key with
    | none =>
      by_cases hk : k = key
      · subst hk; simp [h, List.lookup]
      · have : (k == key) = false := by simpa using hk
        simp [hk, List.lookup, this]
    | some m =>
      by_cases hk : k = key
      · subst hk; simp [h]
      · simp [hk]
  · simp [Check]

theorem unique_iff_nodup (l : List String) : Unique l = true ↔ l.Nodup := by
  unfold Unique
  rw [beq_iff_eq]
  constructor
  · intro h
    have hs : l.dedup = l := (List.dedup_sublist l).eq_of_length h.symm
    exact List.dedup_eq_self.mp hs
  · intro h
    rw [List.dedup_eq_self.mpr h]

theorem toInt32_of_inInt32 {x : Int} (h : InInt32 x) : toInt32 x = x := by
  unfold InInt32 at h
  unfold toInt32
  omega

/-- Validity in terms of the comparison the code makes, for every value of the
clock: the year is compared with `int32(time.Now().Year())`. -/
theorem valid_iff_invariants_int32 (movie : Movie) (nowYear : Int) :
    (ValidateMovie Validator.New movie nowYear).Valid = true ↔
      RecordInvariants movie (toInt32 nowYear) := by
  unfold ValidateMovie RecordInvariants
  simp only [Validator.valid_check]
  have hnew : Validator.New.Valid = true := rfl
  rw [hnew]
  simp only [Bool.true_and, Bool.and_eq_true, bne_iff_ne, ne_eq, decide_eq_true_eq,
    unique_iff_nodup, ge_iff_le]
  cases hg : movie.Genres with
  | none => simp
  | some g =>
    simp only [sliceLen, sliceElems, Option.some.injEq, exists_eq_left', not_false_eq_true,
      reduceCtorEq]
    simp only [and_assoc, true_and]
    constructor
    · rintro ⟨h1, h2, h3, h4, h5, h6, h7, h8, h9, h10⟩
      exact ⟨h1, h2, h4, h5, h7, h8, h9, h10⟩
    · rintro ⟨h1, h2, h4, h5, h7, h8, h9, h10⟩
      exact ⟨h1, h2, by omega, h4, h5, by omega, h7, h8, h9, h10⟩

/-- C1. For every record and every current year `Y` (a calendar year; it fits
`int32`, the type the code converts it to), `ValidateMovie` on an empty
validator leaves the validator valid iff the record satisfies the record
invariants: title non-empty and at most 500 bytes, `1888 ≤ year ≤ Y`,
runtime positive, between 1 and 5 genres without duplicates. -/
theorem validateMovie_valid_iff (movie : Movie) (Y : Int) (hY : InInt32 Y) :
    (ValidateMovie Validator.New movie Y).Valid = true ↔ RecordInvariants movie Y := by
  have h := valid_iff_invariants_int32 movie Y
  rw [toInt32_of_inInt32 hY] at h
  exact h

theorem validateMovie_eq_runChecks (v : Validator) (movie : Movie) (Y : Int) :
    ValidateMovie v movie Y = runChecks v (movieChecks movie Y) := rfl

theorem get_runChecks (k : String) (checks : List (Bool × String × String)) :
    ∀ v : Validator, (runChecks v checks).get k =
      match v.get k with
      | some m => some m
      | none => firstFailure k checks := by
  induction checks with
  | nil => intro v; cases h : v.get k <;> simp [runChecks, firstFailure, h]
  | cons c cs ih =>
    intro v
    have hstep : runChecks v (c :: cs) = runChecks (v.Check c.1 c.2.1 c.2.2) cs := rfl
    rw [hstep, ih, Validator.get_check]
    obtain ⟨ok, key, msg⟩ := c
    cases hv : v.get k with
    | some m => simp
    | none =>
      by_cases hk : k = key
      · subst hk
        cases ok <;> simp [firstFailure, hv]
      · have hne : ¬ key = k := fun h => hk h.symm
        simp [firstFailure, hk, hne, hv]

theorem firstFailure_isSome (k : String) (checks : List (Bool × String × String)) :
    (firstFailure k checks).isSome = someFailure k checks := by
  unfold firstFailure someFailure
  induction checks with
  | nil => simp
  | cons c cs ih =>
    by_cases hc : (!c.1 && c.2.1 == k) = true
    · simp [List.find?_cons, hc]
    · simp only [Bool.not_eq_true] at hc
      simpa [List.find?_cons, hc] using ih

/-- C2. After `ValidateMovie` on an empty validator, the message under every
key is that of the first failing check for that key in the fixed check order;
a key has an entry exactly when some check for that key fails (so failures
under different keys are all recorded); every record with an empty title
gets the `title` entry "must be provided"; and a record that fails under all
four keys gets four entries, each the first failure of its key. -/
theorem validateMovie_collects (movie : Movie) (Y : Int) :
    (∀ k, (ValidateMovie Validator.New movie Y).get k = firstFailure k (movieChecks movie Y)) ∧
    (∀ k, ((ValidateMovie Validator.New movie Y).get k).isSome
        = someFailure k (movieChecks movie Y)) ∧
    (ValidateMovie Validator.New { movie with Title := "" } Y).get "title"
        = some "must be provided" ∧
    (ValidateMovie Validator.New
        { sampleMovie with Title := "", Year := 0, Runtime := -5, Genres := none } 2026).Errors
      = [("genres", "must be provided"), ("runtime", "must be a positive integer"),
          ("year", "must be provided"), ("title", "must be provided")] := by
  have h1 : ∀ (m : Movie) (k : String),
      (ValidateMovie Validator.New m Y).get k = firstFailure k (movieChecks m Y) := by
    intro m k
    rw [validateMovie_eq_runChecks, get_runChecks]
    rfl
  refine ⟨h1 movie, ?_, ?_, rfl⟩
  · intro k
    rw [h1, firstFailure_isSome]
  · rw [h1]
    simp [firstFailure, movieChecks]

/-! ## Query translation -/

theorem intercalate_go_append (sep : String) (l : List String) :
    ∀ acc rest : String,
      String.intercalate.go (acc ++ rest) sep l = acc ++ String.intercalate.go rest sep l := by
  induction l with
  | nil => intro acc rest; rfl
  | cons a as ih =>
    intro acc rest
    simp only [String.intercalate.go]
    rw [String.append_assoc, String.append_assoc, ih, ← String.append_assoc]

theorem intercalate_cons_cons (sep a b : String) (l : List String) :
    String.intercalate sep (a :: b :: l) = a ++ sep ++ String.intercalate sep (b :: l) := by
  simp only [String.intercalate, String.intercalate.go]
  rw [String.append_assoc, intercalate_go_append, intercalate_go_append, String.append_assoc]

/-- C3. The predicate `GetAll` builds matches every record iff the title and
the genre list are both empty; otherwise it is one full-text search clause,
over the title alone, over the genre terms joined with ", ", or over the
title followed by the genre terms in order, all joined with ", ". -/
theorem buildFilter_spec (title : String) (genres : List String) :
    (buildFilter title genres = .matchAll ↔ title = "" ∧ genres = []) ∧
    buildFilter title genres =
      (if title = "" ∧ genres = [] then .matchAll
       else if genres = [] then .textSearch title
       else if title = "" then .textSearch (String.intercalate ", " genres)
       else .textSearch (title ++ ", " ++ String.intercalate ", " genres)) := by
  unfold buildFilter
  cases genres with
  | nil => by_cases ht : title = "" <;> simp [ht]
  | cons g gs =>
    by_cases ht : title = ""
    · simp [ht]
    · simp [ht, intercalate_cons_cons]

/-- C4. The sort key resolves to one (field, direction) pair: `id`, `title`,
`year`, `runtime` give that field ascending, the same keys with a leading `-`
give the field descending, every other string gives ascending `id`; and
sorting by `-year` returns records with years 1999, 2005, 1980 in the order
2005, 1999, 1980. -/
theorem sortSpec_spec :
    (∀ sort : String, sortSpec sort =
      if sort ∈ ["id", "title", "year", "runtime"] then (sort, 1)
      else if sort ∈ ["-id", "-title", "-year", "-runtime"] then (sort.drop 1, -1)
      else ("id", 1)) ∧
    sortSpec "" = ("id", 1) ∧
    (∀ (textMatch : String → Movie → Bool) (a b c : Movie),
      GetAll [{ a with Year := 1999 }, { b with Year := 2005 }, { c with Year := 1980 }]
          textMatch none none none "" [] ⟨1, 10, "-year"⟩ =
        .ok ([{ b with Year := 2005 }, { a with Year := 1999 }, { c with Year := 1980 }],
          calculateMetadata 3 1 10)) := by
  refine ⟨?_, rfl, ?_⟩
  · intro sort
    by_cases h1 : sort = "id"
    · subst h1; rfl
    by_cases h2 : sort = "title"
    · subst h2; rfl
    by_cases h3 : sort = "year"
    · subst h3; rfl
    by_cases h4 : sort = "runtime"
    · subst h4; rfl
    by_cases h5 : sort = "-id"
    · subst h5; rfl
    by_cases h6 : sort = "-title"
    · subst h6; rfl
    by_cases h7 : sort = "-year"
    · subst h7; rfl
    by_cases h8 : sort = "-runtime"
    · subst h8; rfl
    simp [sortSpec, h1, h2, h3, h4, h5, h6, h7, h8]
  · intro textMatch a b c
    have hs : sortSpec "-year" = ("year", -1) := rfl
    have hk1 : ¬ ("year" = "title") := by decide
    simp [GetAll, hs, buildFilter, Filters.limit, Filters.offset, CountDocuments, Find, matching,
      sortDocs, docLE, fieldLE, hk1, List.insertionSort, List.orderedInsert]

/-- C5. Metadata derived from a total of 0 is all zero for every page and page
size; for a total `n > 0` and page size `s ≥ 1` it has the total `n`, the
page `p`, the size `s`, first page 1 and last page `ceil(n / s)`, the least
number of pages of size `s` that hold `n` records. -/
theorem calculateMetadata_spec (n p s s0 : Int) (hn : 0 < n) (hs : 1 ≤ s) :
    calculateMetadata 0 p s0 = ⟨0, 0, 0, 0, 0⟩ ∧
    calculateMetadata n p s = ⟨p, s, 1, ⌈(n : ℚ) / (s : ℚ)⌉, n⟩ ∧
    ((calculateMetadata n p s).LastPage - 1) * s < n ∧
    n ≤ (calculateMetadata n p s).LastPage * s ∧
    (calculateMetadata 10 1 5).LastPage = 2 ∧
    (calculateMetadata 10 1 5).FirstPage = 1 ∧
    (calculateMetadata 1 1 20).LastPage = 1 := by
  have hn0 : n ≠ 0 := by omega
  have hsq : (0 : ℚ) < (s : ℚ) := by exact_mod_cast (by omega : (0 : Int) < s)
  have hform : calculateMetadata n p s = ⟨p, s, 1, ⌈(n : ℚ) / (s : ℚ)⌉, n⟩ := by
    simp [calculateMetadata, hn0]
  refine ⟨by simp [calculateMetadata], hform, ?_, ?_, ?_, ?_, ?_⟩
  · rw [hform]
    have h := Int.ceil_lt_add_one ((n : ℚ) / (s : ℚ))
    have h2 : ((⌈(n : ℚ) / (s : ℚ)⌉ : ℚ) - 1) * (s : ℚ) < (n : ℚ) := by
      rw [← lt_div_iff₀ hsq]; linarith
    exact_mod_cast h2
  · rw [hform]
    have h := Int.le_ceil ((n : ℚ) / (s : ℚ))
    have h2 : (n : ℚ) ≤ (⌈(n : ℚ) / (s : ℚ)⌉ : ℚ) * (s : ℚ) := by
      rw [← div_le_iff₀ hsq]; exact h
    exact_mod_cast h2
  · simp only [calculateMetadata]; norm_num
  · simp [calculateMetadata]
  · simp only [calculateMetadata]
    rw [if_neg (by decide)]
    show ⌈((1 : Int) : ℚ) / ((20 : Int) : ℚ)⌉ = 1
    rw [Int.ceil_eq_iff]; norm_num

theorem calculateMetadata_spec_witness :
    calculateMetadata 0 1 5 = ⟨0, 0, 0, 0, 0⟩ ∧
    calculateMetadata 10 1 5 = ⟨1, 5, 1, ⌈((10 : Int) : ℚ) / ((5 : Int) : ℚ)⌉, 10⟩ ∧
    ((calculateMetadata 10 1 5).LastPage - 1) * 5 < 10 ∧
    10 ≤ (calculateMetadata 10 1 5).LastPage * 5 ∧
    (calculateMetadata 10 1 5).LastPage = 2 ∧
    (calculateMetadata 10 1 5).FirstPage = 1 ∧
    (calculateMetadata 1 1 20).LastPage = 1 :=
  calculateMetadata_spec 10 1 5 5 (by decide) (by decide)

theorem fromHexChar_hexDigit (n : Nat) (h : n < 16) : fromHexChar (hexDigit n) = some n := by
  interval_cases n <;> rfl

theorem utf8Size_hexDigit (n : Nat) (h : n < 16) : (hexDigit n).utf8Size = 1 := by
  interval_cases n <;> rfl

theorem decodeHex_encodeHex (bs : List (Fin 256)) : decodeHex (encodeHex bs) = some bs := by
  induction bs with
  | nil => rfl
  | cons b bs ih =>
    have h1 : b.val / 16 < 16 := by omega
    have h2 : b.val % 16 < 16 := by omega
    simp only [encodeHex, decodeHex, fromHexChar_hexDigit _ h1, fromHexChar_hexDigit _ h2, ih]
    congr 2
    apply Fin.ext
    simp only [Fin.ofNat, Fin.val_mk]
    omega

theorem utf8Len_encodeHex (bs : List (Fin 256)) :
    String.utf8Len (encodeHex bs) = 2 * bs.length := by
  induction bs with
  | nil => rfl
  | cons b bs ih =>
    have h1 : b.val / 16 < 16 := by omega
    have h2 : b.val % 16 < 16 := by omega
    simp only [encodeHex, String.utf8Len_cons, utf8Size_hexDigit _ h1, utf8Size_hexDigit _ h2, ih,
      List.length_cons]
    omega

theorem objectIDFromHex_hex (oid : ObjectID) : ObjectIDFromHex oid.Hex = .ok oid := by
  obtain ⟨bs, hbs⟩ := oid
  have hlen : strLen (ObjectID.Hex ⟨bs, hbs⟩) = 24 := by
    simp [strLen, ObjectID.Hex, utf8Len_encodeHex, hbs]
  have hdata : (ObjectID.Hex ⟨bs, hbs⟩).data = encodeHex bs := rfl
  unfold ObjectIDFromHex
  rw [if_neg (not_not.mpr hlen), hdata, decodeHex_encodeHex]
  simp [hbs]

theorem utf8Size_of_isHexChar (c : Char) (h : isHexChar c = true) : c.utf8Size = 1 := by
  unfold isHexChar at h
  simp only [decide_eq_true_eq] at h
  have hc : c.val.toNat ≤ 127 := by
    have : c.toNat = c.val.toNat := rfl
    omega
  unfold Char.utf8Size
  have : c.val ≤ 127 := by
    rw [UInt32.le_def]
    exact hc
  simp [this]

theorem fromHexChar_isSome_iff (c : Char) : (fromHexChar c).isSome = isHexChar c := by
  unfold fromHexChar isHexChar
  by_cases h1 : 48 ≤ c.toNat ∧ c.toNat ≤ 57
  · simp [h1]
  · by_cases h2 : 97 ≤ c.toNat ∧ c.toNat ≤ 102
    · simp [h1, h2]
    · by_cases h3 : 65 ≤ c.toNat ∧ c.toNat ≤ 70
      · simp [h1, h2, h3]
      · simp [h1, h2, h3]

theorem utf8Len_of_hex (cs : List Char) (h : ∀ c ∈ cs, isHexChar c = true) :
    String.utf8Len cs = cs.length := by
  induction cs with
  | nil => rfl
  | cons c cs ih =>
    have hc := utf8Size_of_isHexChar c (h c (List.mem_cons_self _ _))
    have hr := ih (fun x hx => h x (List.mem_cons_of_mem _ hx))
    simp [String.utf8Len_cons, hc, hr]

theorem decodeHex_some : ∀ (cs : List Char) (bs : List (Fin 256)), decodeHex cs = some bs →
    (∀ c ∈ cs, isHexChar c = true) ∧ cs.length = 2 * bs.length
  | [], bs, h => by
    simp only [decodeHex, Option.some.injEq] at h
    subst h
    simp
  | [_], bs, h => by simp [decodeHex] at h
  | c1 :: c2 :: rest, bs, h => by
    simp only [decodeHex] at h
    cases h1 : fromHexChar c1 with
    | none => simp [h1] at h
    | some hi =>
      cases h2 : fromHexChar c2 with
      | none => simp [h1, h2] at h
      | some lo =>
        cases h3 : decodeHex rest with
        | none => simp [h1, h2, h3] at h
        | some bs0 =>
          simp only [h1, h2, h3, Option.some.injEq] at h
          subst h
          have ih := decodeHex_some rest bs0 h3
          have e1 : isHexChar c1 = true := by rw [← fromHexChar_isSome_iff, h1]; rfl
          have e2 : isHexChar c2 = true := by rw [← fromHexChar_isSome_iff, h2]; rfl
          refine ⟨?_, ?_⟩
          · intro c hc
            simp only [List.mem_cons] at hc
            rcases hc with rfl | rfl | hc
            · exact e1
            · exact e2
            · exact ih.1 c hc
          · simp only [List.length_cons, ih.2]
            omega

theorem decodeHex_of_hex : ∀ (cs : List Char) (k : Nat), (∀ c ∈ cs, isHexChar c = true) →
    cs.length = 2 * k → ∃ bs, decodeHex cs = some bs ∧ bs.length = k
  | [], k, _, hl => ⟨[], rfl, by simp only [List.length_nil] at hl ⊢; omega⟩
  | [_], k, _, hl => by simp at hl; omega
  | c1 :: c2 :: rest, k, hc, hl => by
    have e1 : (fromHexChar c1).isSome = true := by
      rw [fromHexChar_isSome_iff]; exact hc c1 (by simp)
    have e2 : (fromHexChar c2).isSome = true := by
      rw [fromHexChar_isSome_iff]; exact hc c2 (by simp)
    obtain ⟨hi, h1⟩ := Option.isSome_iff_exists.mp e1
    obtain ⟨lo, h2⟩ := Option.isSome_iff_exists.mp e2
    have hl2 : rest.length = 2 * (k - 1) := by simp only [List.length_cons] at hl; omega
    obtain ⟨bs, h3, hb⟩ := decodeHex_of_hex rest (k - 1)
      (fun c hm => hc c (by simp [hm])) hl2
    refine ⟨Fin.ofNat (hi * 16 + lo) :: bs, ?_, ?_⟩
    · simp [decodeHex, h1, h2, h3]
    · simp only [List.length_cons] at hl ⊢
      omega

theorem objectIDFromHex_error (id : String) (e : GoError) (h : ObjectIDFromHex id = .error e) :
    e = .invalidHex := by
  unfold ObjectIDFromHex at h
  split at h
  · injection h with h; exact h.symm
  · split at h
    · injection h with h; exact h.symm
    · split at h
      · cases h
      · injection h with h; exact h.symm

theorem objectIDFromHex_ok_iff (id : String) :
    (∃ oid, ObjectIDFromHex id = .ok oid) ↔ ValidHexID id := by
  unfold ValidHexID
  constructor
  · rintro ⟨oid, h⟩
    unfold ObjectIDFromHex at h
    split at h
    · cases h
    · rename_i hlen
      split at h
      · cases h
      · rename_i bs hdec
        have hd := decodeHex_some _ _ hdec
        refine ⟨?_, hd.1⟩
        have hu := utf8Len_of_hex _ hd.1
        have hlen2 : strLen id = 24 := not_not.mp hlen
        have : strLen id = String.utf8Len id.data := rfl
        omega
  · rintro ⟨hl, hc⟩
    obtain ⟨bs, hdec, hb⟩ := decodeHex_of_hex id.data 12 hc (by omega)
    have hlen : strLen id = 24 := by
      have : strLen id = String.utf8Len id.data := rfl
      rw [this, utf8Len_of_hex _ hc, hl]
    refine ⟨⟨bs, hb⟩, ?_⟩
    unfold ObjectIDFromHex
    rw [if_neg (not_not.mpr hlen)]
    simp [hdec, hb]

/-! ## Lemmas on the store -/

theorem findByID_append (s : Store) (d : Movie) (oid : ObjectID) :
    findByID (s ++ [d]) oid =
      match findByID s oid with
      | some x => some x
      | none => if d.OID == oid then some d else none := by
  unfold findByID
  rw [List.find?_append]
  cases h : List.find? (fun d => d.OID == oid) s with
  | some x => simp
  | none => by_cases hd : d.OID == oid <;> simp [List.find?_cons, hd]

theorem findByID_updateFirst (oid : ObjectID) (f : Movie → Movie)
    (hf : ∀ d, (f d).OID = d.OID) (oid2 : ObjectID) (s : Store) :
    findByID (updateFirst oid f s) oid2 =
      if oid2 = oid then (findByID s oid2).map f else findByID s oid2 := by
  induction s with
  | nil => simp [updateFirst, findByID]
  | cons d ds ih =>
    unfold findByID at ih ⊢
    by_cases h1 : d.OID = oid
    · by_cases h2 : oid2 = oid
      · subst h2
        simp [updateFirst, h1, List.find?_cons, hf]
      · have h3 : ¬ oid = oid2 := fun h => h2 h.symm
        simp [updateFirst, h1, List.find?_cons, hf, h2, h3]
    · by_cases h2 : d.OID = oid2
      · have h3 : ¬ oid2 = oid := fun h => h1 (h2.trans h)
        simp [updateFirst, h1, List.find?_cons, h2, h3]
      · have hb : (d.OID == oid2) = false := by simpa using h2
        simp only [updateFirst, beq_iff_eq, h1, if_false, List.find?_cons, hb]
        exact ih

theorem length_updateFirst (oid : ObjectID) (f : Movie → Movie) (s : Store) :
    (updateFirst oid f s).length = s.length := by
  induction s with
  | nil => rfl
  | cons d ds ih => by_cases h : d.OID = oid <;> simp [updateFirst, h, ih]

theorem filter_updateFirst (oid : ObjectID) (f : Movie → Movie)
    (hf : ∀ d, (f d).OID = d.OID) (s : Store) :
    (updateFirst oid f s).filter (fun d => d.OID != oid) = s.filter (fun d => d.OID != oid) := by
  induction s with
  | nil => rfl
  | cons d ds ih =>
    by_cases h : d.OID = oid
    · simp [updateFirst, h, hf]
    · simp [updateFirst, h, ih]

theorem map_oid_updateFirst (oid : ObjectID) (f : Movie → Movie)
    (hf : ∀ d, (f d).OID = d.OID) (s : Store) :
    (updateFirst oid f s).map (fun d => d.OID) = s.map (fun d => d.OID) := by
  induction s with
  | nil => rfl
  | cons d ds ih => by_cases h : d.OID = oid <;> simp [updateFirst, h, ih, hf]

theorem findByID_eq_none (s : Store) (oid : ObjectID) :
    findByID s oid = none ↔ ∀ d ∈ s, d.OID ≠ oid := by
  unfold findByID
  simp [List.find?_eq_none]

theorem findByID_some_oid (s : Store) (oid : ObjectID) (d : Movie) (h : findByID s oid = some d) :
    d.OID = oid ∧ d ∈ s := by
  unfold findByID at h
  have h1 := List.find?_some h
  have h2 := List.mem_of_find?_eq_some h
  exact ⟨by simpa using h1, h2⟩

theorem removeFirst_eq_filter (oid : ObjectID) (s : Store) (hs : UniqueIDs s) :
    removeFirst oid s = s.filter (fun d => d.OID != oid) := by
  induction s with
  | nil => rfl
  | cons d ds ih =>
    unfold UniqueIDs at hs ih
    simp only [List.map_cons, List.nodup_cons, List.mem_map, not_exists, not_and] at hs
    by_cases h : d.OID = oid
    · have hall : ∀ x ∈ ds, (x.OID != oid) = true := by
        intro x hx
        have := hs.1 x hx
        simp only [bne_iff_ne, ne_eq]
        intro hxo
        exact this (hxo.trans h.symm)
      simp only [removeFirst, beq_iff_eq, h, if_true, List.filter_cons, bne_self_eq_false,
        Bool.false_eq_true, if_false]
      exact (List.filter_eq_self.mpr hall).symm
    · simp [removeFirst, h, ih hs.2]

theorem length_removeFirst (oid : ObjectID) (s : Store) (d : Movie)
    (h : findByID s oid = some d) : (removeFirst oid s).length + 1 = s.length := by
  induction s with
  | nil => simp [findByID] at h
  | cons x xs ih =>
    by_cases hx : x.OID = oid
    · simp [removeFirst, hx]
    · have h2 : findByID xs oid = some d := by
        unfold findByID at h ⊢
        simpa [List.find?_cons, hx] using h
      simp [removeFirst, hx, ih h2]

theorem findByID_filter_ne (oid : ObjectID) (s : Store) :
    findByID (s.filter (fun d => d.OID != oid)) oid = none := by
  rw [findByID_eq_none]
  intro d hd
  simp only [List.mem_filter, bne_iff_ne, ne_eq] at hd
  exact hd.2

theorem valid_genres_nonempty (r : Movie) (Y : Int)
    (hv : (ValidateMovie Validator.New r Y).Valid = true) : r.Genres ≠ some [] := by
  unfold ValidateMovie at hv
  simp only [Validator.valid_check, Bool.and_eq_true, decide_eq_true_eq] at hv
  intro hg
  have h9 := hv.1.1.2
  rw [hg] at h9
  simp [sliceLen] at h9

theorem uniqueIDs_append (s : Store) (d : Movie) (hs : UniqueIDs s)
    (hf : findByID s d.OID = none) : UniqueIDs (s ++ [d]) := by
  unfold UniqueIDs at hs ⊢
  rw [List.map_append, List.nodup_append]
  refine ⟨hs, by simp, ?_⟩
  intro a ha hb
  simp only [List.map_cons, List.map_nil, List.mem_singleton] at hb
  simp only [List.mem_map] at ha
  obtain ⟨x, hx, hxa⟩ := ha
  exact (findByID_eq_none s d.OID).mp hf x hx (hxa.trans hb)

theorem uniqueIDs_updateFirst (oid : ObjectID) (f : Movie → Movie)
    (hf : ∀ d, (f d).OID = d.OID) (s : Store) (hs : UniqueIDs s) :
    UniqueIDs (updateFirst oid f s) := by
  unfold UniqueIDs at hs ⊢
  rw [map_oid_updateFirst oid f hf s]
  exact hs

theorem uniqueIDs_removeFirst (oid : ObjectID) (s : Store) (hs : UniqueIDs s) :
    UniqueIDs (removeFirst oid s) := by
  rw [removeFirst_eq_filter oid s hs]
  unfold UniqueIDs at hs ⊢
  exact (List.Sublist.map _ (List.filter_sublist s)).nodup hs

/-- The store invariant is kept by every write of the repository. -/
theorem uniqueIDs_preserved (s : Store) (hs : UniqueIDs s) :
    (∀ oid now f1 f2 r, UniqueIDs (Insert s oid now f1 f2 r).1) ∧
    (∀ f r id, UniqueIDs (Update s f r id).1) ∧
    (∀ f id, UniqueIDs (Delete s f id).1) := by
  refine ⟨?_, ?_, ?_⟩
  · intro oid now f1 f2 r
    unfold Insert InsertOne
    cases f1 with
    | some e => exact hs
    | none =>
      cases hf : findByID s oid with
      | some d => simpa [hf] using hs
      | none =>
        have happ := uniqueIDs_append s (bsonStored ⟨oid, oid.Hex, now, r.Title, r.Year,
          r.Runtime, r.Genres, 0⟩) hs hf
        cases f2 with
        | some e => simpa [hf, FindOneAndUpdate] using happ
        | none =>
          simp only [hf, FindOneAndUpdate]
          split
          · exact happ
          · exact uniqueIDs_updateFirst oid incVersion (fun _ => rfl) _ happ
  · intro f r id
    unfold Update UpdateByID
    cases ObjectIDFromHex id with
    | error e => exact hs
    | ok oid =>
      cases f with
      | some e => exact hs
      | none => exact uniqueIDs_updateFirst oid (setAndInc r) (fun _ => rfl) s hs
  · intro f id
    unfold Delete DeleteOne
    cases ObjectIDFromHex id with
    | error e => exact hs
    | ok oid =>
      cases f with
      | some fr =>
        obtain ⟨e, res⟩ := fr
        cases res with
        | none => exact hs
        | some n => by_cases hn : n = 0 <;> simpa [hn] using hs
      | none =>
        cases hf : findByID s oid with
        | none => simpa [hf] using hs
        | some d => simpa [hf] using uniqueIDs_removeFirst oid s hs

/-! ## The repository operations -/

theorem get_eq_findByID (s : Store) (id : String) (oid : ObjectID)
    (h : ObjectIDFromHex id = .ok oid) :
    Get s none id = match findByID s oid with
      | none => .error .noDocuments
      | some d => decodeMovie d := by
  simp only [Get, FindOne, h]
  cases findByID s oid with
  | none => rfl
  | some d => simp only []; cases decodeMovie d <;> rfl

theorem decodeMovie_ok (d : Movie) (h1 : -2147483648 ≤ d.Version) (h2 : d.Version ≤ 2147483647) :
    decodeMovie d = .ok d := by
  unfold decodeMovie
  rw [if_pos ⟨h1, h2⟩]

theorem decodeMovie_eq_ok (d m : Movie) (h : decodeMovie d = .ok m) :
    m = d ∧ -2147483648 ≤ d.Version ∧ d.Version ≤ 2147483647 := by
  unfold decodeMovie at h
  split at h
  · rename_i hr
    injection h with h
    exact ⟨h.symm, hr⟩
  · cases h

theorem insert_ok (s : Store) (oid : ObjectID) (now : Int) (f1 f2 : Option GoError) (r : Movie)
    (s1 : Store) (id : String) (hi : Insert s oid now f1 f2 r = (s1, .ok id)) :
    id = oid.Hex ∧ f1 = none ∧ findByID s oid = none ∧
    findByID s1 oid = some
      { OID := oid, ID := oid.Hex, CreatedAt := now, Title := r.Title, Year := r.Year,
        Runtime := r.Runtime, Genres := if r.Genres = some [] then none else r.Genres,
        Version := if f2 = none then 1 else 0 } := by
  unfold Insert InsertOne at hi
  cases f1 with
  | some e => simp at hi
  | none =>
    cases hf : findByID s oid with
    | some d => simp [hf] at hi
    | none =>
      simp only [hf, bsonStored] at hi
      cases f2 with
      | some e =>
        simp only [FindOneAndUpdate, Prod.mk.injEq, Except.ok.injEq] at hi
        obtain ⟨hs, hid⟩ := hi
        subst hs
        refine ⟨hid.symm, rfl, rfl, ?_⟩
        rw [findByID_append, hf]
        simp
      | none =>
        simp only [FindOneAndUpdate, findByID_append, hf, beq_self_eq_true, if_true,
          Prod.mk.injEq, Except.ok.injEq] at hi
        obtain ⟨hs, hid⟩ := hi
        subst hs
        refine ⟨hid.symm, rfl, rfl, ?_⟩
        rw [findByID_updateFirst, if_pos rfl, findByID_append, hf]
        · simp [incVersion]
        · intro d; rfl

/-- C6. Round trip: if a record that passes validation is inserted and
`Insert` returns `id`, then `Get(id)` on the resulting store (a read that the
store answers) returns a record with the same title, year, runtime and genres
and with identifier `id`; the version the caller supplied has no influence on
`Insert`. -/
theorem insert_get_roundtrip (s : Store) (oid : ObjectID) (now : Int) (f1 f2 : Option GoError)
    (r : Movie) (Y : Int) (s1 : Store) (id : String)
    (hv : (ValidateMovie Validator.New r Y).Valid = true)
    (hi : Insert s oid now f1 f2 r = (s1, .ok id)) :
    (∃ m, Get s1 none id = .ok m ∧ m.Title = r.Title ∧ m.Year = r.Year ∧
      m.Runtime = r.Runtime ∧ m.Genres = r.Genres ∧ m.ID = id) ∧
    (∀ version, Insert s oid now f1 f2 { r with Version := version } = (s1, .ok id)) := by
  obtain ⟨hid, _, _, hfind⟩ := insert_ok s oid now f1 f2 r s1 id hi
  have hg := valid_genres_nonempty r Y hv
  refine ⟨?_, fun _ => hi⟩
  subst hid
  rw [get_eq_findByID s1 _ oid (objectIDFromHex_hex oid), hfind]
  simp only []
  rw [decodeMovie_ok _ (by simp only []; split <;> decide) (by simp only []; split <;> decide)]
  exact ⟨_, rfl, rfl, rfl, rfl, by simp [hg], rfl⟩

/-- C7 (amended). If the store holds a record under `id` whose version is
below 2147483647, the largest `int32`, then (the store answering every call)
`Update(r2, id)` succeeds and a following `Get(id)` returns the title, year,
runtime and genres of `r2` and a version greater by exactly 1, with
identifier and creation timestamp kept and every other record unchanged; a
freshly inserted record has version 1, so one `Update` after `Insert` gives
version 2. -/
theorem update_get_spec (s : Store) (id : String) (m0 r2 : Movie)
    (s0 : Store) (oid : ObjectID) (now : Int) (r : Movie) (s1 : Store) (id1 : String)
    (hget : Get s none id = .ok m0)
    (hver : m0.Version < 2147483647)
    (hins : Insert s0 oid now none none r = (s1, .ok id1)) :
    (∃ s2 m1, Update s none r2 id = (s2, none) ∧ Get s2 none id = .ok m1 ∧
      m1.Title = r2.Title ∧ m1.Year = r2.Year ∧ m1.Runtime = r2.Runtime ∧
      m1.Genres = r2.Genres ∧ m1.Version = m0.Version + 1 ∧
      m1.OID = m0.OID ∧ m1.ID = m0.ID ∧ m1.CreatedAt = m0.CreatedAt ∧
      s2.length = s.length ∧
      s2.filter (fun d => d.OID != m0.OID) = s.filter (fun d => d.OID != m0.OID) ∧
      (∀ other, other ≠ m0.OID → findByID s2 other = findByID s other)) ∧
    (∃ m, Get s1 none id1 = .ok m ∧ m.Version = 1) ∧
    (∃ m, Get (Update s1 none r2 id1).1 none id1 = .ok m ∧ m.Version = 2) := by
  have key : ∀ (t : Store) (i : String) (d : Movie), Get t none i = .ok d →
      d.Version < 2147483647 →
      ∃ t2 m1, Update t none r2 i = (t2, none) ∧ Get t2 none i = .ok m1 ∧
        m1.Title = r2.Title ∧ m1.Year = r2.Year ∧ m1.Runtime = r2.Runtime ∧
        m1.Genres = r2.Genres ∧ m1.Version = d.Version + 1 ∧
        m1.OID = d.OID ∧ m1.ID = d.ID ∧ m1.CreatedAt = d.CreatedAt ∧
        t2.length = t.length ∧
        t2.filter (fun x => x.OID != d.OID) = t.filter (fun x => x.OID != d.OID) ∧
        (∀ other, other ≠ d.OID → findByID t2 other = findByID t other) := by
    intro t i d hg hlt
    cases hoid : ObjectIDFromHex i with
    | error e => simp [Get, hoid] at hg
    | ok o =>
      rw [get_eq_findByID t i o hoid] at hg
      cases hf : findByID t o with
      | none => simp [hf] at hg
      | some d0 =>
        simp only [hf] at hg
        obtain ⟨hd, hlo, _⟩ := decodeMovie_eq_ok d0 d hg
        subst hd
        have ho : d.OID = o := (findByID_some_oid t o d hf).1
        subst ho
        have hupd : ∀ x : Movie, (setAndInc r2 x).OID = x.OID := fun _ => rfl
        have hv1 : (setAndInc r2 d).Version = d.Version + 1 := rfl
        refine ⟨updateFirst d.OID (setAndInc r2) t, setAndInc r2 d,
          ?_, ?_, rfl, rfl, rfl, rfl, rfl, rfl, rfl, rfl, ?_, ?_, ?_⟩
        · simp only [Update, hoid, UpdateByID]
        · rw [get_eq_findByID _ i _ hoid, findByID_updateFirst _ _ hupd, if_pos rfl, hf]
          exact decodeMovie_ok _ (by rw [hv1]; omega) (by rw [hv1]; omega)
        · exact length_updateFirst _ _ _
        · exact filter_updateFirst _ _ hupd _
        · intro other hne
          rw [findByID_updateFirst _ _ hupd, if_neg hne]
  obtain ⟨hid, _, _, hfind⟩ := insert_ok s0 oid now none none r s1 id1 hins
  obtain ⟨m, hm, hmv⟩ : ∃ m, findByID s1 oid = some m ∧ m.Version = 1 := ⟨_, hfind, rfl⟩
  have hg1 : Get s1 none id1 = .ok m := by
    rw [hid, get_eq_findByID s1 _ oid (objectIDFromHex_hex oid), hm]
    exact decodeMovie_ok m (by rw [hmv]; decide) (by rw [hmv]; decide)
  refine ⟨key s id m0 hget hver, ⟨m, hg1, hmv⟩, ?_⟩
  obtain ⟨t2, m1, hu, hg2, _, _, _, _, hv2, _⟩ := key s1 id1 m hg1 (by rw [hmv]; decide)
  refine ⟨m1, ?_, ?_⟩
  · rw [hu]; exact hg2
  · rw [hv2, hmv]; rfl

/-- C7 (as stated, refuted). The store holds a record under a well-formed id,
with version 2147483647; `Update` succeeds and the store then holds version
2147483648, but the following `Get` does not return the record with a version
greater by 1: decoding the stored version into the `int32` field fails. -/
theorem update_get_overflow :
    Get maxVersionStore none "60a1b2c3d4e5f60718293a4b" = .ok maxVersionStored ∧
    Update maxVersionStore none sampleUpdate "60a1b2c3d4e5f60718293a4b"
      = ([setAndInc sampleUpdate maxVersionStored], none) ∧
    (setAndInc sampleUpdate maxVersionStored).Version = 2147483648 ∧
    Get (Update maxVersionStore none sampleUpdate "60a1b2c3d4e5f60718293a4b").1 none
      "60a1b2c3d4e5f60718293a4b" = .error .decodeOverflow ∧
    ¬ ∃ m1, Get (Update maxVersionStore none sampleUpdate "60a1b2c3d4e5f60718293a4b").1 none
      "60a1b2c3d4e5f60718293a4b" = .ok m1 ∧ m1.Version = maxVersionStored.Version + 1 := by
  have hg : Get (Update maxVersionStore none sampleUpdate "60a1b2c3d4e5f60718293a4b").1 none
      "60a1b2c3d4e5f60718293a4b" = .error .decodeOverflow := rfl
  refine ⟨rfl, rfl, rfl, hg, ?_⟩
  rintro ⟨m1, h, _⟩
  rw [hg] at h
  cases h

/-- C8. With a store that answers, `Delete(id)` fails with the ID-format error
and leaves the store unchanged when `id` is not a structurally valid
identifier (24 hexadecimal digits), fails with not-found when `id` is
well-formed and no record has it, and otherwise succeeds and removes exactly
that record; after a successful `Delete(id)`, `Get(id)` and a second
`Delete(id)` fail with not-found. -/
theorem delete_spec (s : Store) (id : String) (hs : UniqueIDs s) :
    (¬ ValidHexID id → Delete s none id = (s, .ret (some .invalidHex))) ∧
    (∀ oid, ObjectIDFromHex id = .ok oid → findByID s oid = none →
      Delete s none id = (s, .ret (some .noDocuments))) ∧
    (∀ oid d, ObjectIDFromHex id = .ok oid → findByID s oid = some d →
      ∃ s1, Delete s none id = (s1, .ret none) ∧
        s1 = s.filter (fun x => x.OID != oid) ∧ s1.length + 1 = s.length ∧ d ∉ s1 ∧
        Get s1 none id = .error .noDocuments ∧
        Delete s1 none id = (s1, .ret (some .noDocuments))) := by
  refine ⟨?_, ?_, ?_⟩
  · intro hv
    cases h : ObjectIDFromHex id with
    | ok oid => exact absurd ((objectIDFromHex_ok_iff id).mp ⟨oid, h⟩) hv
    | error e =>
      have he := objectIDFromHex_error id e h
      subst he
      simp only [Delete, h]
  · intro oid h hf
    simp only [Delete, h, DeleteOne, hf, if_true]
  · intro oid d h hf
    have hrem := removeFirst_eq_filter oid s hs
    have hnone := findByID_filter_ne oid s
    refine ⟨removeFirst oid s, ?_, hrem, length_removeFirst oid s d hf, ?_, ?_, ?_⟩
    · simp [Delete, h, DeleteOne, hf]
    · rw [hrem]
      intro hmem
      have h1 := (findByID_some_oid s oid d hf).1
      simp [List.mem_filter, h1] at hmem
    · rw [get_eq_findByID _ id oid h, hrem, hnone]
    · rw [hrem]
      simp only [Delete, h, DeleteOne, hnone, if_true]

/-- C9 (the code departs from the claim). A failing store call is not always
returned: when `DeleteOne` fails, `Delete` discards the error and panics on a
nil result (and answers not-found or success on a non-nil one), and when the
second write of `Insert` fails, `Insert` still reports success and the version
stays 0; `Get`, `Update`, `GetAll` and the first write of `Insert` return the
failure. -/
theorem store_failure_handling (e : GoError) :
    (∀ s, Delete s (some (e, none)) "60a1b2c3d4e5f60718293a4b" = (s, .panic)) ∧
    (∀ s n, Delete s (some (e, some n)) "60a1b2c3d4e5f60718293a4b" =
      (s, if n = 0 then .ret (some .noDocuments) else .ret none)) ∧
    (∀ now r, (Insert [] sampleOID now none (some e) r).2 = .ok "60a1b2c3d4e5f60718293a4b" ∧
      (Get (Insert [] sampleOID now none (some e) r).1 none
        "60a1b2c3d4e5f60718293a4b").map (fun m => m.Version) = .ok 0) ∧
    (∀ s oid now r, Insert s oid now (some e) none r = (s, .error e)) ∧
    (∀ s, Get s (some e) "60a1b2c3d4e5f60718293a4b" = .error e) ∧
    (∀ s r, Update s (some e) r "60a1b2c3d4e5f60718293a4b" = (s, some e)) ∧
    (∀ s tm t g f, GetAll s tm (some e) none none t g f = .error e) := by
  have hid : ObjectIDFromHex "60a1b2c3d4e5f60718293a4b" = .ok sampleOID := rfl
  refine ⟨?_, ?_, ?_, ?_, ?_, ?_, ?_⟩
  · intro s
    simp only [Delete, hid, DeleteOne]
  · intro s n
    simp only [Delete, hid, DeleteOne]
    split <;> rfl
  · intro now r
    exact ⟨rfl, rfl⟩
  · intro s oid now r
    rfl
  · intro s
    simp only [Get, hid, FindOne]
  · intro s r
    simp only [Update, hid, UpdateByID]
  · intro s tm t g f
    simp only [GetAll, CountDocuments]

theorem validateMovie_valid_iff_witness :
    InInt32 2026 ∧ (ValidateMovie Validator.New sampleMovie 2026).Valid = true ∧
      RecordInvariants sampleMovie 2026 :=
  ⟨⟨by decide, by decide⟩, rfl,
    (validateMovie_valid_iff sampleMovie 2026 ⟨by decide, by decide⟩).mp rfl⟩

theorem insert_get_roundtrip_witness :
    (ValidateMovie Validator.New sampleMovie 2026).Valid = true ∧
    Insert [] sampleOID 0 none none sampleMovie = (sampleStore, .ok "60a1b2c3d4e5f60718293a4b") ∧
    (∃ m, Get sampleStore none "60a1b2c3d4e5f60718293a4b" = .ok m ∧
      m.Title = sampleMovie.Title ∧ m.Year = sampleMovie.Year ∧
      m.Runtime = sampleMovie.Runtime ∧ m.Genres = sampleMovie.Genres ∧
      m.ID = "60a1b2c3d4e5f60718293a4b") ∧
    (∀ version, Insert [] sampleOID 0 none none { sampleMovie with Version := version }
      = (sampleStore, .ok "60a1b2c3d4e5f60718293a4b")) :=
  ⟨rfl, rfl, insert_get_roundtrip [] sampleOID 0 none none sampleMovie 2026 sampleStore
    "60a1b2c3d4e5f60718293a4b" rfl rfl⟩

theorem update_get_spec_witness :
    Get sampleStore none "60a1b2c3d4e5f60718293a4b" = .ok sampleStored ∧
    sampleStored.Version < 2147483647 ∧
    Insert [] sampleOID 0 none none sampleMovie = (sampleStore, .ok "60a1b2c3d4e5f60718293a4b") ∧
    (∃ m, Get sampleStore none "60a1b2c3d4e5f60718293a4b" = .ok m ∧ m.Version = 1) ∧
    (∃ m, Get (Update sampleStore none sampleUpdate "60a1b2c3d4e5f60718293a4b").1 none
      "60a1b2c3d4e5f60718293a4b" = .ok m ∧ m.Version = 2) :=
  ⟨rfl, by decide, rfl,
    (update_get_spec sampleStore "60a1b2c3d4e5f60718293a4b" sampleStored sampleUpdate
      [] sampleOID 0 sampleMovie sampleStore "60a1b2c3d4e5f60718293a4b" rfl (by decide) rfl).2⟩

theorem delete_spec_witness :
    UniqueIDs sampleStore ∧
    ∃ s1, Delete sampleStore none "60a1b2c3d4e5f60718293a4b" = (s1, .ret none) ∧
      s1 = sampleStore.filter (fun x => x.OID != sampleOID) ∧
      s1.length + 1 = sampleStore.length ∧ sampleStored ∉ s1 ∧
      Get s1 none "60a1b2c3d4e5f60718293a4b" = .error .noDocuments ∧
      Delete s1 none "60a1b2c3d4e5f60718293a4b" = (s1, .ret (some .noDocuments)) :=
  ⟨by simp [UniqueIDs, sampleStore],
    (delete_spec sampleStore "60a1b2c3d4e5f60718293a4b" (by simp [UniqueIDs, sampleStore])).2.2
      sampleOID sampleStored rfl rfl⟩

end Greenlight
